import Mathlib

/-!
Shallow embedding of the aquawatch-backend core pipeline
(fetch → encode → infer → decide) and proofs of the specification claims.

Conventions of the embedding:
* Go byte strings and Go strings are modelled as Lean sequences of
  characters, with Go string functions translated on that type.
* Go float64 arithmetic is modelled over the rationals, the idealised
  field arithmetic the code is written against.
* External effects (HTTP fetches, the timestamp parser of the standard
  library, the weather lookup, the number scanner of fmt.Sscanf and
  strconv.ParseFloat) enter as explicit function parameters; theorems
  quantify over them, and witnesses instantiate them concretely.
-/

namespace AquaWatch

/-- Characters treated as space by Go unicode.IsSpace on the inputs this
code sees (ASCII space classes plus NEL and NBSP). -/
def goIsSpace (c : Char) : Bool :=
  c = ' ' || c = '\t' || c = '\n' || c = '\x0b' || c = '\x0c' || c = '\r' ||
  c = '\x85' || c = '\xa0'

/-- Model of Go strings.TrimSpace: drop leading and trailing space. -/
def trimGo (l : List Char) : List Char :=
  ((l.dropWhile goIsSpace).reverse.dropWhile goIsSpace).reverse

/-- Model of Go strings.Split on a single-character separator. -/
def splitOnChar (sep : Char) : List Char → List (List Char)
  | [] => [[]]
  | c :: cs =>
    match splitOnChar sep cs with
    | [] => [[]]
    | t :: ts => if c = sep then [] :: t :: ts else (c :: t) :: ts

/-- Digit character of a single decimal digit. -/
def digitChar (d : Nat) : Char := Char.ofNat (48 + d)

/-- Decimal digit characters of a natural number (model of Go integer
formatting with the %d verb on non-negative input). -/
def natChars (n : Nat) : List Char :=
  if h : n < 10 then [digitChar n]
  else natChars (n / 10) ++ [digitChar (n % 10)]
decreasing_by exact Nat.div_lt_self (by omega) (by omega)

/-- Decimal characters of an integer (model of Go %d formatting). -/
def intChars (i : Int) : List Char :=
  if i < 0 then '-' :: natChars (-i).toNat else natChars i.toNat

/-- Numeric value of a list of decimal digit characters. -/
def digitsToNat (l : List Char) : Nat :=
  l.foldl (fun acc c => acc * 10 + (c.toNat - 48)) 0

/-- Model of strconv.ParseFloat restricted to the plain decimal literals
exercised by this code base: optional sign, then digits with at most one
decimal point, at least one digit overall.  Returns none exactly when the
token is not such a literal. -/
def parseDecimalCore (l : List Char) : Option ℚ :=
  match splitOnChar '.' l with
  | [a] =>
    if a ≠ [] ∧ a.all Char.isDigit then some (digitsToNat a : ℚ) else none
  | [a, b] =>
    if (a ≠ [] ∨ b ≠ []) ∧ a.all Char.isDigit ∧ b.all Char.isDigit then
      some ((digitsToNat a : ℚ) + (digitsToNat b : ℚ) / 10 ^ b.length)
    else none
  | _ => none

/-- Signed decimal literal parser wrapping parseDecimalCore. -/
def parseDecimal (l : List Char) : Option ℚ :=
  match l with
  | '-' :: rest => (parseDecimalCore rest).map (fun q => -q)
  | '+' :: rest => parseDecimalCore rest
  | _ => parseDecimalCore l

/-! ## AnomalyDecider (internal/anomaly.go) -/

/-- Source constant minPredictedValue = 15 from internal/anomaly.go. -/
def minPredictedValue : ℚ := 15

/-- Source constant defaultThresholdPercent = 20 from internal/anomaly.go. -/
def defaultThresholdPercent : ℚ := 20

/-- AnomalyResult from internal/anomaly.go: outcome of processing,
inference, and anomaly detection. -/
structure AnomalyResult where
  s3Key : List Char
  observedValue : ℚ
  predictedValue : ℚ
  percentChange : ℚ
  anomalous : Bool
  deriving Repr, DecidableEq

/-- Model of Go math.Round: round half away from zero to an integer. -/
def goRound (x : ℚ) : ℤ :=
  if x < 0 then -⌊-x + 1/2⌋ else ⌊x + 1/2⌋

/-- The decision stage of ProcessInferAndDetect (internal/anomaly.go):
round observed and predicted to 2 decimals for the response, compute the
percent change from the unrounded values over the max(1e-9, |observed|)
denominator, and classify. -/
def detectAnomaly (key : List Char) (observed predicted : ℚ) : AnomalyResult :=
  let obsRounded : ℚ := (goRound (observed * 100) : ℚ) / 100
  let predRounded : ℚ := (goRound (predicted * 100) : ℚ) / 100
  let den : ℚ := max (1 / 1000000000) |observed|
  let percent : ℚ := |predicted - observed| / den * 100
  { s3Key := key
    observedValue := obsRounded
    predictedValue := predRounded
    percentChange := percent
    anomalous := decide (percent > defaultThresholdPercent ∧ predicted > minPredictedValue) }

/-- The §3 invariant written from the spec wording, for comparison with
the code's computation. -/
def percentChangeSpec (observed predicted : ℚ) : ℚ :=
  |predicted - observed| / max (1 / 1000000000) |observed| * 100

/-! ## InferenceClient response parsing (internal/anomaly.go) -/

/-- Model of strings.TrimPrefix(text, left bracket): drop one leading
opening bracket when present. -/
def dropBracketOpen (l : List Char) : List Char :=
  match l with
  | '[' :: rest => rest
  | _ => l

/-- Model of strings.TrimSuffix(text, right bracket): drop one trailing
closing bracket when present. -/
def dropBracketClose (l : List Char) : List Char :=
  if l.getLast? = some ']' then l.dropLast else l

/-- The separator normalisation of parsePredictions: newline, carriage
return, comma, tab and space all become commas.  Each Go separator string
is a single character, so a character map is exact. -/
def sepToComma (c : Char) : Char :=
  if c = '\n' ∨ c = '\r' ∨ c = ',' ∨ c = '\t' ∨ c = ' ' then ',' else c

/-- One step of the parsePredictions scanning loop: keep the previous
candidate unless this token trims non-empty and parses. -/
def predStep (pf : List Char → Option ℚ) (acc : Option ℚ) (part : List Char) : Option ℚ :=
  let p := trimGo part
  if p = [] then acc
  else
    match pf p with
    | none => acc
    | some v => some v

/-- parsePredictions from internal/anomaly.go, parameterised by the
numeric token parser pf (strconv.ParseFloat in the source).  Trims the
output, rejects empty, strips one surrounding bracket pair, normalises
separators to commas, splits, and scans keeping the last parsed value. -/
def parsePredictions (pf : List Char → Option ℚ) (output : List Char) :
    Except (List Char) ℚ :=
  if trimGo output = [] then Except.error "empty prediction output".data
  else
    match (splitOnChar ','
        ((dropBracketClose (dropBracketOpen (trimGo output))).map sepToComma)).foldl
        (predStep pf) none with
    | some v => Except.ok v
    | none => Except.error "no numeric predictions parsed".data

/-- Spec-side description of the numeric tokens of a model output: the
tokens of the normalised split that trim non-empty and parse, in order. -/
def numericTokens (pf : List Char → Option ℚ) (output : List Char) : List ℚ :=
  ((splitOnChar ','
      ((dropBracketClose (dropBracketOpen (trimGo output))).map sepToComma)).filterMap
    (fun part => let p := trimGo part; if p = [] then none else pf p))

/-! ## TimeSeriesSource (GetWaterDataBatch and friends)

The per-site HTTP attempt — building the URL, http.Get, the non-OK status
check, and reading the body — is modelled by an oracle taking the trimmed
station id to either the payload bytes or an error.  The Go loop appends
one result per station and returns early on the first error. -/

/-- GetWaterDataBatch from the USGS source file: one payload per station
id in order, nil at blank (whitespace-only) ids, aborting with the error
of the first failed request. -/
def GetWaterDataBatch (fetch : List Char → Except (List Char) (List Char)) :
    List (List Char) → Except (List Char) (List (Option (List Char)))
  | [] => Except.ok []
  | sid :: rest =>
    if trimGo sid = [] then
      match GetWaterDataBatch fetch rest with
      | Except.ok rs => Except.ok (none :: rs)
      | Except.error e => Except.error e
    else
      match fetch (trimGo sid) with
      | Except.error e => Except.error e
      | Except.ok data =>
        match GetWaterDataBatch fetch rest with
        | Except.ok rs => Except.ok (some data :: rs)
        | Except.error e => Except.error e

/-- GetWaterDailyDataLast30DaysBatch from the USGS source file: same loop
as GetWaterDataBatch against the daily-values endpoint; the 30-day window
computation only affects the request URL and lives inside the oracle. -/
def GetWaterDailyDataLast30DaysBatch
    (fetch : List Char → Except (List Char) (List Char)) :
    List (List Char) → Except (List Char) (List (Option (List Char)))
  | [] => Except.ok []
  | sid :: rest =>
    if trimGo sid = [] then
      match GetWaterDailyDataLast30DaysBatch fetch rest with
      | Except.ok rs => Except.ok (none :: rs)
      | Except.error e => Except.error e
    else
      match fetch (trimGo sid) with
      | Except.error e => Except.error e
      | Except.ok data =>
        match GetWaterDailyDataLast30DaysBatch fetch rest with
        | Except.ok rs => Except.ok (some data :: rs)
        | Except.error e => Except.error e

/-- Stand-in for the embedded canned USGS JSON document of the preprocess
lambda (its multi-kilobyte JSON body is elided; no claim depends on its
content, only on its substitution as the last-resort payload). -/
def cannedUSGSDoc : List Char := "embedded canned USGS document".data

/-- Fetch stage of the preprocess handler in
lambdas/train_model_tracker/main.go: 30-day daily batch first, then the
instantaneous batch, then the single canned document. -/
def preprocessFetchStage (dailyFetch ivFetch : List Char → Except (List Char) (List Char))
    (stationIDs : List (List Char)) : List (Option (List Char)) :=
  match GetWaterDailyDataLast30DaysBatch dailyFetch stationIDs with
  | Except.ok rs => rs
  | Except.error _ =>
    match GetWaterDataBatch ivFetch stationIDs with
    | Except.ok rs => rs
    | Except.error _ => [some cannedUSGSDoc]

/-- Fetch stage of ProcessInferAndDetect in internal/anomaly.go: a guard
on the station id, then a single-site instantaneous batch whose error is
propagated to the caller. -/
def processInferFetchStage (ivFetch : List Char → Except (List Char) (List Char))
    (stationID : List Char) : Except (List Char) (List (Option (List Char))) :=
  if stationID = [] then Except.error "station id required".data
  else GetWaterDataBatch ivFetch [stationID]

/-- Oracle for which every request fails, as when the provider is down. -/
def fetchAlwaysFails : List Char → Except (List Char) (List Char) :=
  fun _ => Except.error "USGS API request failed".data

/-- Oracle failing exactly on the station id bad, succeeding elsewhere. -/
def fetchFailsOnBad : List Char → Except (List Char) (List Char) :=
  fun sid => if sid = "bad".data then Except.error "network failure".data
    else Except.ok "payload".data

/-! ## DatasetAccumulator (preprocess handler append step) -/

/-- The dataset append step of the preprocess handler: when the previous
content loads and is non-empty, add a newline unless one ends it already
and concatenate the new bytes; otherwise the new bytes stand alone. -/
def mergeDataset (existing : Except (List Char) (List Char)) (nw : List Char) :
    List Char :=
  match existing with
  | Except.ok e =>
    if e ≠ [] then
      (if e.getLast? ≠ some '\n' then e ++ ['\n'] else e) ++ nw
    else nw
  | Except.error _ => nw

/-! ## FeatureEncoder (PreprocessDataCSV) and observed-value extraction

The USGS document structure is modelled with the fields the encoder and
the observed-value extraction read: per time series the geo-location and
the nested Values / Value point lists; per point the value string and the
dateTime string.  The timestamp parsers (time.Parse RFC3339 for the
encoder, the parseUSGSTime helper for the extraction, a repository
function not present in this snapshot), the fmt.Sscanf numeric scan and
the weather lookup are oracle parameters. -/

/-- One timestamped value point of a USGS time series. -/
structure USGSPoint where
  value : List Char
  dateTime : List Char
  deriving Repr, DecidableEq

/-- One element of the Values list of a USGS time series. -/
structure USGSValues where
  value : List USGSPoint
  deriving Repr, DecidableEq

/-- One USGS time series: geo-location plus the nested point lists. -/
structure USGSTimeSeries where
  latitude : ℚ
  longitude : ℚ
  values : List USGSValues
  deriving Repr, DecidableEq

/-- A parsed USGS JSON document (the fields the core reads). -/
structure USGSJSON where
  timeSeries : List USGSTimeSeries
  deriving Repr, DecidableEq

/-- The points of a series in document order, flattening the Values
nesting exactly as the two nested loops of the source do. -/
def seriesPoints (ts : USGSTimeSeries) : List USGSPoint :=
  (ts.values.map (fun vv => vv.value)).flatten

/-- Go encoding/csv field quoting test (fieldNeedsQuotes) for the default
comma separator. -/
def fieldNeedsQuotes (f : List Char) : Bool :=
  if f = [] then false
  else if f = ['\\', '.'] then true
  else if f.any (fun c => c = ',' || c = '"' || c = '\r' || c = '\n') then true
  else
    match f.head? with
    | some c => goIsSpace c
    | none => false

/-- Go encoding/csv quoted-field rendering with doubled quotes (the
carriage-return normalisation inside quotes is irrelevant here because no
emitted field ever needs quoting, as proved below). -/
def quoteField (f : List Char) : List Char :=
  '"' :: (f.foldr (fun c acc => if c = '"' then '"' :: '"' :: acc else c :: acc) ['"'])

/-- One field as written by Go encoding/csv. -/
def writeField (f : List Char) : List Char :=
  if fieldNeedsQuotes f then quoteField f else f

/-- One record as written by Go encoding/csv with the default comma
separator and newline terminator. -/
def writeRecord (fields : List (List Char)) : List Char :=
  List.intercalate [','] (fields.map writeField) ++ ['\n']

/-- Zero-pad a digit string on the left to k characters. -/
def padZeros (k : Nat) (l : List Char) : List Char :=
  List.replicate (k - l.length) '0' ++ l

/-- Model of Go fmt.Sprintf with the %f verb: sign, integer part, point,
six fractional digits, rounding the decimal expansion to six places
(ties, which cannot arise from the binary doubles this code formats, round
away from zero). -/
def fmt6 (x : ℚ) : List Char :=
  (if x < 0 then ['-'] else []) ++
  natChars ((goRound (|x| * 1000000)).toNat / 1000000) ++ ['.'] ++
  padZeros 6 (natChars ((goRound (|x| * 1000000)).toNat % 1000000))

/-- One encoded point of PreprocessDataCSV: none when the timestamp fails
to parse (the point is silently dropped), otherwise the csv record
value, epoch seconds, latitude, longitude, temperature. -/
def encodePoint (parseT : List Char → Option Int) (parseVal : List Char → Option ℚ)
    (lat lng : ℚ) (temp : Int) (p : USGSPoint) : Option (List Char) :=
  (parseT p.dateTime).map (fun t =>
    writeRecord [fmt6 ((parseVal p.value).getD 0), intChars t, fmt6 lat, fmt6 lng,
      intChars temp])

/-- PreprocessDataCSV from the preprocessing source file: per series fetch
the weather once (temperature 0 when the lookup fails), then emit one csv
record per point with a parseable timestamp, in document order, with no
header.  The Go function returns a csv-writer error only, which cannot
occur, so the model returns the bytes. -/
def PreprocessDataCSV (parseT : List Char → Option Int)
    (weather : ℚ → ℚ → Option Int) (parseVal : List Char → Option ℚ)
    (doc : USGSJSON) : List Char :=
  (doc.timeSeries.map (fun ts =>
    ((ts.values.map (fun vv =>
      (vv.value.filterMap (encodePoint parseT parseVal ts.latitude ts.longitude
        ((weather ts.latitude ts.longitude).getD 0))).flatten)).flatten))).flatten

/-- The label-stripping step of ProcessInferAndDetect: trim the csv,
split into lines, drop blank lines, drop the first comma-delimited field
of every multi-field line, and rejoin with newline terminators. -/
def stripLabelColumn (csv : List Char) : List Char :=
  ((splitOnChar '\n' (trimGo csv)).map (fun line =>
    if trimGo line = [] then []
    else
      List.intercalate [',']
        (if 1 < (splitOnChar ',' (trimGo line)).length then
          (splitOnChar ',' (trimGo line)).drop 1
        else splitOnChar ',' (trimGo line)) ++ ['\n'])).flatten

/-- Spec-side feature row: the claimed field layout of one encoded point
as a plain comma join. -/
def featureRowSpec (parseVal : List Char → Option ℚ) (weather : ℚ → ℚ → Option Int)
    (lat lng : ℚ) (t : Int) (p : USGSPoint) : List Char :=
  fmt6 ((parseVal p.value).getD 0) ++ [','] ++ intChars t ++ [','] ++ fmt6 lat ++
    [','] ++ fmt6 lng ++ [','] ++ intChars ((weather lat lng).getD 0) ++ ['\n']

/-- Spec-side flattened point list of a document with each point tagged
by its series' geo-location, in document order. -/
def docPoints (doc : USGSJSON) : List (ℚ × ℚ × USGSPoint) :=
  (doc.timeSeries.map (fun ts =>
    (seriesPoints ts).map (fun p => (ts.latitude, ts.longitude, p)))).flatten

/-- The lines of a newline-terminated byte string: the split on newline
without the final empty segment. -/
def linesOf (l : List Char) : List (List Char) :=
  (splitOnChar '\n' l).dropLast

/-! ## Observed-value extraction (parseLatestObserved, internal/anomaly.go) -/

/-- One step of the latest-observation scan: a point with an unparsable
timestamp is skipped; otherwise the point replaces the running candidate
when there is none yet or its instant is strictly later. -/
def latestStep (parseT : List Char → Option Int) (parseVal : List Char → Option ℚ)
    (st : Option (Int × ℚ)) (p : USGSPoint) : Option (Int × ℚ) :=
  match parseT p.dateTime with
  | none => st
  | some t =>
    match st with
    | none => some (t, (parseVal p.value).getD 0)
    | some (lt, _) => if lt < t then some (t, (parseVal p.value).getD 0) else st

/-- The inner double loop of parseLatestObserved over one series. -/
def latestInSeries (parseT : List Char → Option Int) (parseVal : List Char → Option ℚ)
    (ts : USGSTimeSeries) : Option (Int × ℚ) :=
  ts.values.foldl (fun st vv => vv.value.foldl (latestStep parseT parseVal) st) none

/-- parseLatestObserved from internal/anomaly.go: return the latest
value of the first series whose scan found a point, else the
no-observations error.  The timestamp parser parseUSGSTime is an oracle
parameter (its definition is not part of this snapshot); fmt.Sscanf with
the %f verb is the value oracle, defaulting to 0 on failure. -/
def parseLatestObserved (parseT : List Char → Option Int)
    (parseVal : List Char → Option ℚ) : List USGSTimeSeries → Except (List Char) ℚ
  | [] => Except.error "no observations found".data
  | ts :: rest =>
    match latestInSeries parseT parseVal ts with
    | some (_, v) => Except.ok v
    | none => parseLatestObserved parseT parseVal rest

/-! ## Helper lemmas -/

/-- For a cons list, Option.elim over getLast? ignores the default. -/
lemma getLast?_cons_elim {α : Type _} (v : α) (l : List α) (acc : Option α) :
    ((v :: l).getLast?).elim acc some = (l.getLast?).elim (some v) some := by
  cases l with
  | nil => rfl
  | cons b t =>
    rw [List.getLast?_cons_cons]
    obtain ⟨x, hx⟩ :=
      Option.isSome_iff_exists.1 ((List.getLast?_isSome (l := b :: t)).2 (by simp))
    rw [hx]
    rfl

/-- The token function underlying one step of the scanning loop. -/
def tokOf (pf : List Char → Option ℚ) (part : List Char) : Option ℚ :=
  let p := trimGo part
  if p = [] then none else pf p

lemma predStep_eq (pf : List Char → Option ℚ) (acc : Option ℚ) (part : List Char) :
    predStep pf acc part = (tokOf pf part).elim acc some := by
  unfold predStep tokOf
  by_cases h : trimGo part = []
  · simp [h]
  · simp only [h, if_neg h]
    cases pf (trimGo part) <;> simp

lemma foldl_predStep_eq (pf : List Char → Option ℚ) (parts : List (List Char))
    (acc : Option ℚ) :
    parts.foldl (predStep pf) acc = ((parts.filterMap (tokOf pf)).getLast?).elim acc some := by
  induction parts generalizing acc with
  | nil => rfl
  | cons part rest ih =>
    rw [List.foldl_cons, ih, List.filterMap_cons]
    cases h : tokOf pf part with
    | none => simp [predStep_eq, h]
    | some v => simp [predStep_eq, h, getLast?_cons_elim]

lemma numericTokens_eq_filterMap (pf : List Char → Option ℚ) (output : List Char) :
    numericTokens pf output =
      (splitOnChar ','
        ((dropBracketClose (dropBracketOpen (trimGo output))).map sepToComma)).filterMap
        (tokOf pf) := rfl

lemma parseDecimalCore_eq_pair (l a b : List Char) (h : splitOnChar '.' l = [a, b]) :
    parseDecimalCore l =
      if (a ≠ [] ∨ b ≠ []) ∧ a.all Char.isDigit ∧ b.all Char.isDigit then
        some ((digitsToNat a : ℚ) + (digitsToNat b : ℚ) / 10 ^ b.length)
      else none := by
  unfold parseDecimalCore
  rw [h]

lemma parseDecimalCore_eq_single (l a : List Char) (h : splitOnChar '.' l = [a]) :
    parseDecimalCore l =
      (if a ≠ [] ∧ a.all Char.isDigit then some (digitsToNat a : ℚ) else none) := by
  unfold parseDecimalCore
  rw [h]

lemma parseDecimal_ten : parseDecimal "10".data = some 10 := by
  show parseDecimalCore "10".data = some 10
  rw [parseDecimalCore_eq_single _ "10".data (by decide),
    if_pos ⟨by decide, by decide⟩,
    show digitsToNat "10".data = 10 from by decide]
  norm_num

lemma parseDecimal_twenty : parseDecimal "20".data = some 20 := by
  show parseDecimalCore "20".data = some 20
  rw [parseDecimalCore_eq_single _ "20".data (by decide),
    if_pos ⟨by decide, by decide⟩,
    show digitsToNat "20".data = 20 from by decide]
  norm_num

lemma parseDecimal_sixtySixFive : parseDecimal "66.5".data = some (133/2) := by
  show parseDecimalCore "66.5".data = some (133/2)
  rw [parseDecimalCore_eq_pair _ "66".data "5".data (by decide),
    if_pos ⟨Or.inl (by decide), by decide, by decide⟩,
    show digitsToNat "66".data = 66 from by decide,
    show digitsToNat "5".data = 5 from by decide]
  norm_num

lemma parseDecimal_abc : parseDecimal "abc".data = none := by
  show parseDecimalCore "abc".data = none
  rw [parseDecimalCore_eq_single _ "abc".data (by decide), if_neg (by decide)]

lemma tokOf_eval (pf : List Char → Option ℚ) (part : List Char)
    (h1 : trimGo part = part) (h2 : part ≠ []) :
    tokOf pf part = pf part := by
  unfold tokOf
  rw [h1, if_neg h2]

lemma parsePredictions_eval_ok (pf : List Char → Option ℚ) (output : List Char)
    (toks : List (List Char)) (v : ℚ) (h0 : trimGo output ≠ [])
    (h1 : splitOnChar ','
        ((dropBracketClose (dropBracketOpen (trimGo output))).map sepToComma) = toks)
    (h2 : toks.foldl (predStep pf) none = some v) :
    parsePredictions pf output = Except.ok v := by
  unfold parsePredictions
  rw [if_neg h0, h1, h2]

lemma parsePredictions_eval_err (pf : List Char → Option ℚ) (output : List Char)
    (toks : List (List Char)) (h0 : trimGo output ≠ [])
    (h1 : splitOnChar ','
        ((dropBracketClose (dropBracketOpen (trimGo output))).map sepToComma) = toks)
    (h2 : toks.foldl (predStep pf) none = none) :
    parsePredictions pf output = Except.error "no numeric predictions parsed".data := by
  unfold parsePredictions
  rw [if_neg h0, h1, h2]

lemma GetWaterDataBatch_cons (fetch : List Char → Except (List Char) (List Char))
    (sid : List Char) (rest : List (List Char)) :
    GetWaterDataBatch fetch (sid :: rest) =
      if trimGo sid = [] then
        match GetWaterDataBatch fetch rest with
        | Except.ok rs => Except.ok (none :: rs)
        | Except.error e => Except.error e
      else
        match fetch (trimGo sid) with
        | Except.error e => Except.error e
        | Except.ok data =>
          match GetWaterDataBatch fetch rest with
          | Except.ok rs => Except.ok (some data :: rs)
          | Except.error e => Except.error e := rfl

lemma GetWaterDailyDataLast30DaysBatch_cons
    (fetch : List Char → Except (List Char) (List Char))
    (sid : List Char) (rest : List (List Char)) :
    GetWaterDailyDataLast30DaysBatch fetch (sid :: rest) =
      if trimGo sid = [] then
        match GetWaterDailyDataLast30DaysBatch fetch rest with
        | Except.ok rs => Except.ok (none :: rs)
        | Except.error e => Except.error e
      else
        match fetch (trimGo sid) with
        | Except.error e => Except.error e
        | Except.ok data =>
          match GetWaterDailyDataLast30DaysBatch fetch rest with
          | Except.ok rs => Except.ok (some data :: rs)
          | Except.error e => Except.error e := rfl

lemma batch_ok_of_fetch_ok (fetch : List Char → Except (List Char) (List Char))
    (ids : List (List Char))
    (hfetch : ∀ sid ∈ ids, trimGo sid ≠ [] → ∃ d, fetch (trimGo sid) = Except.ok d) :
    ∃ rs, GetWaterDataBatch fetch ids = Except.ok rs ∧ rs.length = ids.length ∧
      (∀ i (h : i < ids.length), trimGo ids[i] = [] → rs[i]? = some none) := by
  induction ids with
  | nil => exact ⟨[], rfl, rfl, fun i h => absurd h (by simp)⟩
  | cons sid rest ih =>
    obtain ⟨rs, hrs, hlen, hblank⟩ :=
      ih (fun s hs h => hfetch s (List.mem_cons_of_mem _ hs) h)
    by_cases hb : trimGo sid = []
    · refine ⟨none :: rs, ?_, by simp [hlen], ?_⟩
      · rw [GetWaterDataBatch_cons, if_pos hb, hrs]
      · intro i h hi
        cases i with
        | zero => simp
        | succ n =>
          simp only [List.getElem?_cons_succ]
          exact hblank n (by simpa using h) (by simpa using hi)
    · obtain ⟨d, hd⟩ := hfetch sid (List.mem_cons_self _ _) hb
      refine ⟨some d :: rs, ?_, by simp [hlen], ?_⟩
      · rw [GetWaterDataBatch_cons, if_neg hb, hd, hrs]
      · intro i h hi
        cases i with
        | zero => exact absurd hi hb
        | succ n =>
          simp only [List.getElem?_cons_succ]
          exact hblank n (by simpa using h) (by simpa using hi)

/-! ### Character classes of the numeric formats -/

/-- The characters numeric formats can emit: sign, point, digits. -/
def safeChars : List Char :=
  ['-', '.', '0', '1', '2', '3', '4', '5', '6', '7', '8', '9']

lemma digitChar_mem_safe (d : Nat) (h : d < 10) : digitChar d ∈ safeChars := by
  interval_cases d <;> decide

lemma natChars_subset_safe (n : Nat) : ∀ c ∈ natChars n, c ∈ safeChars := by
  induction n using Nat.strong_induction_on with
  | _ n ih =>
    intro c hc
    rw [natChars] at hc
    by_cases h : n < 10
    · rw [dif_pos h] at hc
      rcases List.mem_singleton.1 hc with rfl
      exact digitChar_mem_safe n h
    · rw [dif_neg h] at hc
      rcases List.mem_append.1 hc with h2 | h2
      · exact ih (n / 10) (Nat.div_lt_self (by omega) (by omega)) c h2
      · rcases List.mem_singleton.1 h2 with rfl
        exact digitChar_mem_safe _ (Nat.mod_lt _ (by omega))

lemma natChars_ne_nil (n : Nat) : natChars n ≠ [] := by
  rw [natChars]
  by_cases h : n < 10
  · rw [dif_pos h]
    simp
  · rw [dif_neg h]
    simp

lemma intChars_subset_safe (i : Int) : ∀ c ∈ intChars i, c ∈ safeChars := by
  intro c hc
  unfold intChars at hc
  by_cases h : i < 0
  · rw [if_pos h] at hc
    rcases List.mem_cons.1 hc with rfl | h2
    · decide
    · exact natChars_subset_safe _ c h2
  · rw [if_neg h] at hc
    exact natChars_subset_safe _ c hc

lemma intChars_ne_nil (i : Int) : intChars i ≠ [] := by
  unfold intChars
  by_cases h : i < 0
  · rw [if_pos h]
    simp
  · rw [if_neg h]
    exact natChars_ne_nil _

lemma fmt6_subset_safe (x : ℚ) : ∀ c ∈ fmt6 x, c ∈ safeChars := by
  intro c hc
  unfold fmt6 at hc
  rcases List.mem_append.1 hc with h1 | h1
  · rcases List.mem_append.1 h1 with h2 | h2
    · rcases List.mem_append.1 h2 with h3 | h3
      · by_cases h : x < 0
        · rw [if_pos h] at h3
          rcases List.mem_singleton.1 h3 with rfl
          decide
        · rw [if_neg h] at h3
          cases h3
      · exact natChars_subset_safe _ c h3
    · rcases List.mem_singleton.1 h2 with rfl
      decide
  · unfold padZeros at h1
    rcases List.mem_append.1 h1 with h2 | h2
    · rcases List.eq_of_mem_replicate h2 with rfl
      decide
    · exact natChars_subset_safe _ c h2

lemma fmt6_ne_nil (x : ℚ) : fmt6 x ≠ [] := by
  unfold fmt6
  intro h
  rcases List.append_eq_nil.1 h with ⟨h1, -⟩
  rcases List.append_eq_nil.1 h1 with ⟨h2, -⟩
  rcases List.append_eq_nil.1 h2 with ⟨-, h3⟩
  exact natChars_ne_nil _ h3

lemma safe_not_special {c : Char} (h : c ∈ safeChars) :
    (c = ',' || c = '"' || c = '\r' || c = '\n') = false := by
  fin_cases h <;> decide

lemma safe_not_space {c : Char} (h : c ∈ safeChars) : goIsSpace c = false := by
  fin_cases h <;> decide

lemma comma_safe_not_space {c : Char} (h : c ∈ safeChars ∨ c = ',') :
    goIsSpace c = false := by
  rcases h with h | rfl
  · exact safe_not_space h
  · decide

/-! ### The csv writer never quotes numeric fields -/

lemma fieldNeedsQuotes_false (f : List Char) (hne : f ≠ [])
    (hsub : ∀ c ∈ f, c ∈ safeChars) : fieldNeedsQuotes f = false := by
  unfold fieldNeedsQuotes
  rw [if_neg hne, if_neg ?_, if_neg ?_]
  · cases f with
    | nil => rfl
    | cons a t => exact safe_not_space (hsub a (List.mem_cons_self _ _))
  · intro h
    rw [List.any_eq_true] at h
    obtain ⟨c, hc, hcs⟩ := h
    rw [safe_not_special (hsub c hc)] at hcs
    cases hcs
  · intro h
    have : '\\' ∈ f := by rw [h]; simp
    have := hsub _ this
    simp [safeChars] at this

lemma writeField_safe (f : List Char) (hne : f ≠ [])
    (hsub : ∀ c ∈ f, c ∈ safeChars) : writeField f = f := by
  unfold writeField
  rw [fieldNeedsQuotes_false f hne hsub]
  rfl

lemma writeRecord_safe (fields : List (List Char))
    (hne : ∀ f ∈ fields, f ≠ []) (hsub : ∀ f ∈ fields, ∀ c ∈ f, c ∈ safeChars) :
    writeRecord fields = List.intercalate [','] fields ++ ['\n'] := by
  unfold writeRecord
  congr 2
  have : fields.map writeField = fields.map id :=
    List.map_congr_left (fun f hf => writeField_safe f (hne f hf) (hsub f hf))
  rw [this, List.map_id]

/-! ### Splitting, joining and trimming -/

lemma intercalate_cons_cons (s a b : List Char) (t : List (List Char)) :
    List.intercalate s (a :: b :: t) = a ++ s ++ List.intercalate s (b :: t) := by
  simp [List.intercalate, List.intersperse]

lemma mem_intercalate {c : Char} {s : Char} {fields : List (List Char)}
    (h : c ∈ List.intercalate [s] fields) : c = s ∨ ∃ f ∈ fields, c ∈ f := by
  induction fields with
  | nil => simp [List.intercalate] at h
  | cons f rest ih =>
    cases rest with
    | nil =>
      simp [List.intercalate] at h
      exact Or.inr ⟨f, by simp, h⟩
    | cons g rest' =>
      rw [intercalate_cons_cons] at h
      rcases List.mem_append.1 h with h1 | h1
      · rcases List.mem_append.1 h1 with h2 | h2
        · exact Or.inr ⟨f, by simp, h2⟩
        · exact Or.inl (List.mem_singleton.1 h2)
      · rcases ih h1 with h2 | ⟨g', hg', hc⟩
        · exact Or.inl h2
        · exact Or.inr ⟨g', List.mem_cons_of_mem _ hg', hc⟩

lemma splitOnChar_ne_nil (sep : Char) (l : List Char) : splitOnChar sep l ≠ [] := by
  cases l with
  | nil => simp [splitOnChar]
  | cons c cs =>
    cases h : splitOnChar sep cs with
    | nil => simp [splitOnChar, h]
    | cons t ts =>
      simp only [splitOnChar, h]
      split_ifs <;> simp

lemma splitOnChar_sep_cons (sep : Char) (r : List Char) :
    splitOnChar sep (sep :: r) = [] :: splitOnChar sep r := by
  cases h : splitOnChar sep r with
  | nil => exact absurd h (splitOnChar_ne_nil _ _)
  | cons t ts => simp [splitOnChar, h]

lemma splitOnChar_append_sep (sep : Char) (f r : List Char)
    (hf : ∀ c ∈ f, c ≠ sep) :
    splitOnChar sep (f ++ sep :: r) = f :: splitOnChar sep r := by
  induction f with
  | nil => simpa using splitOnChar_sep_cons sep r
  | cons a f' ih =>
    have ih2 := ih (fun c hc => hf c (List.mem_cons_of_mem _ hc))
    have ha : a ≠ sep := hf a (List.mem_cons_self _ _)
    rw [List.cons_append]
    show (match splitOnChar sep (f' ++ sep :: r) with
      | [] => [[]]
      | t :: ts => if a = sep then [] :: t :: ts else (a :: t) :: ts) =
      (a :: f') :: splitOnChar sep r
    rw [ih2]
    simp [ha]

lemma splitOnChar_no_sep (sep : Char) (l : List Char) (h : ∀ c ∈ l, c ≠ sep) :
    splitOnChar sep l = [l] := by
  induction l with
  | nil => rfl
  | cons a l' ih =>
    have ih2 := ih (fun c hc => h c (List.mem_cons_of_mem _ hc))
    have ha : a ≠ sep := h a (List.mem_cons_self _ _)
    show (match splitOnChar sep l' with
      | [] => [[]]
      | t :: ts => if a = sep then [] :: t :: ts else (a :: t) :: ts) = [a :: l']
    rw [ih2]
    simp [ha]

lemma splitOnChar_intercalate (sep : Char) (fields : List (List Char))
    (hne : fields ≠ []) (hf : ∀ f ∈ fields, ∀ c ∈ f, c ≠ sep) :
    splitOnChar sep (List.intercalate [sep] fields) = fields := by
  induction fields with
  | nil => exact absurd rfl hne
  | cons f rest ih =>
    cases rest with
    | nil =>
      have : List.intercalate [sep] [f] = f := by simp [List.intercalate]
      rw [this, splitOnChar_no_sep sep f (hf f (by simp))]
    | cons g rest' =>
      rw [intercalate_cons_cons, List.append_assoc, List.singleton_append,
        splitOnChar_append_sep sep f _ (hf f (by simp)),
        ih (by simp) (fun x hx => hf x (List.mem_cons_of_mem _ hx))]

lemma trimGo_eq_self (l : List Char) (h : ∀ c ∈ l, goIsSpace c = false) :
    trimGo l = l := by
  have h1 : l.dropWhile goIsSpace = l := by
    cases l with
    | nil => rfl
    | cons a t => simp [List.dropWhile, h a (by simp)]
  have h2 : l.reverse.dropWhile goIsSpace = l.reverse := by
    cases hr : l.reverse with
    | nil => rfl
    | cons a t =>
      have ha : a ∈ l := by
        rw [← List.mem_reverse, hr]
        simp
      simp [List.dropWhile, h a ha]
  unfold trimGo
  rw [h1, h2, List.reverse_reverse]

lemma trimGo_append_newline (l : List Char) (hhead : ∀ c ∈ l.head?, goIsSpace c = false)
    (hlast : ∀ c ∈ l.getLast?, goIsSpace c = false) :
    trimGo (l ++ ['\n']) = l := by
  cases l with
  | nil => decide
  | cons a t =>
    unfold trimGo
    have h1 : ((a :: t) ++ ['\n']).dropWhile goIsSpace = (a :: t) ++ ['\n'] := by
      simp [List.dropWhile, hhead a rfl]
    have h2 : ((a :: t) ++ ['\n']).reverse.dropWhile goIsSpace = (a :: t).reverse := by
      rw [List.reverse_append]
      show List.dropWhile goIsSpace ('\n' :: (a :: t).reverse) = (a :: t).reverse
      rw [List.dropWhile_cons_of_pos (by decide)]
      cases hr : (a :: t).reverse with
      | nil => simp at hr
      | cons x s =>
        have hx : (a :: t).getLast? = some x := by
          rw [← List.head?_reverse, hr]
          rfl
        simp [List.dropWhile, hlast x hx]
    rw [h1, h2, List.reverse_reverse]

/-! ### Newline-terminated row blocks -/

/-- The join of a list of line bodies, each terminated by a newline. -/
def terminatedJoin (bodies : List (List Char)) : List Char :=
  (bodies.map (fun b => b ++ ['\n'])).flatten

lemma terminatedJoin_cons (b : List Char) (rest : List (List Char)) :
    terminatedJoin (b :: rest) = b ++ '\n' :: terminatedJoin rest := by
  simp [terminatedJoin]

lemma splitOnChar_terminatedJoin (bodies : List (List Char))
    (h : ∀ b ∈ bodies, ∀ c ∈ b, c ≠ '\n') :
    splitOnChar '\n' (terminatedJoin bodies) = bodies ++ [[]] := by
  induction bodies with
  | nil => rfl
  | cons b rest ih =>
    rw [terminatedJoin_cons, splitOnChar_append_sep '\n' b _ (h b (by simp)),
      ih (fun x hx => h x (List.mem_cons_of_mem _ hx))]
    rfl

lemma linesOf_terminatedJoin (bodies : List (List Char))
    (h : ∀ b ∈ bodies, ∀ c ∈ b, c ≠ '\n') :
    linesOf (terminatedJoin bodies) = bodies := by
  unfold linesOf
  rw [splitOnChar_terminatedJoin bodies h, List.dropLast_concat]

lemma head?_intercalate_newline (b : List Char) (rest : List (List Char))
    (hb : b ≠ []) :
    (List.intercalate ['\n'] (b :: rest)).head? = b.head? := by
  cases rest with
  | nil => simp [List.intercalate]
  | cons g rest' =>
    rw [intercalate_cons_cons, List.append_assoc]
    exact List.head?_append_of_ne_nil _ hb

lemma intercalate_newline_ne_nil (g : List Char) (rest : List (List Char))
    (hg : g ≠ []) : List.intercalate ['\n'] (g :: rest) ≠ [] := by
  cases rest with
  | nil => simpa [List.intercalate] using hg
  | cons x t =>
    rw [intercalate_cons_cons]
    simp

lemma getLast?_intercalate_newline (b : List Char) (rest : List (List Char))
    (hrest : ∀ x ∈ rest, x ≠ []) (hb : b ≠ []) :
    ∃ x ∈ b :: rest, (List.intercalate ['\n'] (b :: rest)).getLast? = x.getLast? := by
  induction rest generalizing b with
  | nil => exact ⟨b, by simp, by simp [List.intercalate]⟩
  | cons g rest' ih =>
    obtain ⟨x, hx, hlast⟩ := ih g (fun y hy => hrest y (List.mem_cons_of_mem _ hy))
      (hrest g (List.mem_cons_self _ _))
    refine ⟨x, List.mem_cons_of_mem _ hx, ?_⟩
    rw [intercalate_cons_cons, List.append_assoc, List.singleton_append,
      List.getLast?_append_of_ne_nil _ (by simp),
      show ('\n' :: List.intercalate ['\n'] (g :: rest')) =
        ['\n'] ++ List.intercalate ['\n'] (g :: rest') from rfl,
      List.getLast?_append_of_ne_nil _
        (intercalate_newline_ne_nil g rest' (hrest g (List.mem_cons_self _ _))),
      hlast]

lemma trimGo_terminatedJoin (bodies : List (List Char))
    (hne : ∀ b ∈ bodies, b ≠ [])
    (hns : ∀ b ∈ bodies, ∀ c ∈ b, goIsSpace c = false) :
    trimGo (terminatedJoin bodies) = List.intercalate ['\n'] bodies := by
  cases bodies with
  | nil => rfl
  | cons b rest =>
    have hnl : ∀ x ∈ b :: rest, ∀ c ∈ x, c ≠ '\n' := by
      intro x hx c hc hceq
      have := hns x hx c hc
      rw [hceq] at this
      cases this
    have hj : terminatedJoin (b :: rest) = List.intercalate ['\n'] (b :: rest) ++ ['\n'] := by
      clear hne hns hnl
      induction rest generalizing b with
      | nil => simp [terminatedJoin, List.intercalate]
      | cons g rest' ih =>
        rw [terminatedJoin_cons, ih g, intercalate_cons_cons]
        simp
    rw [hj, trimGo_append_newline]
    · intro c hc
      rw [head?_intercalate_newline b rest (hne b (by simp))] at hc
      cases b with
      | nil => cases hc
      | cons a t =>
        have hca : a = c := by simpa using hc
        subst hca
        exact hns (a :: t) (by simp) a (by simp)
    · intro c hc
      obtain ⟨x, hx, hlast⟩ :=
        getLast?_intercalate_newline b rest
          (fun y hy => hne y (List.mem_cons_of_mem _ hy)) (hne b (by simp))
      rw [hlast] at hc
      exact hns x hx c (List.mem_of_mem_getLast? hc)

/-! ### Structure of the encoder output -/

lemma filterMap_flatten {α β : Type _} (g : α → Option β) (L : List (List α)) :
    L.flatten.filterMap g = (L.map (fun x => x.filterMap g)).flatten := by
  induction L with
  | nil => rfl
  | cons x L' ih => simp [List.filterMap_append, ih]

lemma flatten_of_flatten {α : Type _} (Y : List (List (List α))) :
    Y.flatten.flatten = (Y.map List.flatten).flatten := by
  induction Y with
  | nil => rfl
  | cons y Y' ih => simp [List.flatten_append, ih]

lemma rowFields_ne_nil (parseVal : List Char → Option ℚ) (weather : ℚ → ℚ → Option Int)
    (lat lng : ℚ) (t : Int) (p : USGSPoint) :
    ∀ f ∈ [fmt6 ((parseVal p.value).getD 0), intChars t, fmt6 lat, fmt6 lng,
      intChars ((weather lat lng).getD 0)], f ≠ [] := by
  intro f hf
  fin_cases hf
  · exact fmt6_ne_nil _
  · exact intChars_ne_nil _
  · exact fmt6_ne_nil _
  · exact fmt6_ne_nil _
  · exact intChars_ne_nil _

lemma rowFields_safe (parseVal : List Char → Option ℚ) (weather : ℚ → ℚ → Option Int)
    (lat lng : ℚ) (t : Int) (p : USGSPoint) :
    ∀ f ∈ [fmt6 ((parseVal p.value).getD 0), intChars t, fmt6 lat, fmt6 lng,
      intChars ((weather lat lng).getD 0)], ∀ c ∈ f, c ∈ safeChars := by
  intro f hf
  fin_cases hf
  · exact fmt6_subset_safe _
  · exact intChars_subset_safe _
  · exact fmt6_subset_safe _
  · exact fmt6_subset_safe _
  · exact intChars_subset_safe _

lemma encodePoint_eq_spec (parseT : List Char → Option Int)
    (parseVal : List Char → Option ℚ) (weather : ℚ → ℚ → Option Int)
    (lat lng : ℚ) (p : USGSPoint) :
    encodePoint parseT parseVal lat lng ((weather lat lng).getD 0) p =
      (parseT p.dateTime).map (fun t => featureRowSpec parseVal weather lat lng t p) := by
  unfold encodePoint
  cases hT : parseT p.dateTime with
  | none => rfl
  | some t =>
    simp only [Option.map_some']
    congr 1
    rw [writeRecord_safe _ (rowFields_ne_nil parseVal weather lat lng t p)
      (rowFields_safe parseVal weather lat lng t p)]
    unfold featureRowSpec
    simp [List.intercalate, List.intersperse]

/-- The body of one feature row: the record without its newline. -/
def bodyRowSpec (parseVal : List Char → Option ℚ) (weather : ℚ → ℚ → Option Int)
    (lat lng : ℚ) (t : Int) (p : USGSPoint) : List Char :=
  List.intercalate [','] [fmt6 ((parseVal p.value).getD 0), intChars t, fmt6 lat,
    fmt6 lng, intChars ((weather lat lng).getD 0)]

/-- The line bodies of the encoder output, in document order. -/
def bodiesOf (parseT : List Char → Option Int) (weather : ℚ → ℚ → Option Int)
    (parseVal : List Char → Option ℚ) (doc : USGSJSON) : List (List Char) :=
  (docPoints doc).filterMap (fun x =>
    (parseT x.2.2.dateTime).map (fun t => bodyRowSpec parseVal weather x.1 x.2.1 t x.2.2))

lemma featureRowSpec_eq_body (parseVal : List Char → Option ℚ)
    (weather : ℚ → ℚ → Option Int) (lat lng : ℚ) (t : Int) (p : USGSPoint) :
    featureRowSpec parseVal weather lat lng t p =
      bodyRowSpec parseVal weather lat lng t p ++ ['\n'] := by
  unfold featureRowSpec bodyRowSpec
  simp [List.intercalate, List.intersperse]

lemma preprocess_eq_rows (parseT : List Char → Option Int)
    (weather : ℚ → ℚ → Option Int) (parseVal : List Char → Option ℚ)
    (doc : USGSJSON) :
    PreprocessDataCSV parseT weather parseVal doc =
      ((docPoints doc).filterMap (fun x =>
        (parseT x.2.2.dateTime).map (fun t =>
          featureRowSpec parseVal weather x.1 x.2.1 t x.2.2))).flatten := by
  have hR : ((docPoints doc).filterMap (fun x =>
      (parseT x.2.2.dateTime).map (fun t =>
        featureRowSpec parseVal weather x.1 x.2.1 t x.2.2))).flatten
      = (doc.timeSeries.map (fun ts =>
          ((((seriesPoints ts).map (fun p => (ts.latitude, ts.longitude, p))).filterMap
            (fun x => (parseT x.2.2.dateTime).map (fun t =>
              featureRowSpec parseVal weather x.1 x.2.1 t x.2.2))).flatten))).flatten := by
    unfold docPoints
    rw [filterMap_flatten, List.map_map, flatten_of_flatten, List.map_map]
    rfl
  have perTS : ∀ ts : USGSTimeSeries,
      ((((seriesPoints ts).map (fun p => (ts.latitude, ts.longitude, p))).filterMap
        (fun x => (parseT x.2.2.dateTime).map (fun t =>
          featureRowSpec parseVal weather x.1 x.2.1 t x.2.2))).flatten)
      = ((ts.values.map (fun vv =>
          (vv.value.filterMap (encodePoint parseT parseVal ts.latitude ts.longitude
            ((weather ts.latitude ts.longitude).getD 0))).flatten)).flatten) := by
    intro ts
    rw [List.filterMap_map]
    have hfun : ((fun x : ℚ × ℚ × USGSPoint =>
        (parseT x.2.2.dateTime).map (fun t =>
          featureRowSpec parseVal weather x.1 x.2.1 t x.2.2)) ∘
        (fun p => (ts.latitude, ts.longitude, p)))
        = encodePoint parseT parseVal ts.latitude ts.longitude
            ((weather ts.latitude ts.longitude).getD 0) := by
      funext p
      exact (encodePoint_eq_spec parseT parseVal weather ts.latitude ts.longitude p).symm
    rw [hfun]
    unfold seriesPoints
    rw [filterMap_flatten, List.map_map, flatten_of_flatten, List.map_map]
    rfl
  rw [hR]
  unfold PreprocessDataCSV
  exact congrArg List.flatten (List.map_congr_left (fun ts _ => (perTS ts).symm))

lemma preprocess_eq_tJ (parseT : List Char → Option Int)
    (weather : ℚ → ℚ → Option Int) (parseVal : List Char → Option ℚ)
    (doc : USGSJSON) :
    PreprocessDataCSV parseT weather parseVal doc =
      terminatedJoin (bodiesOf parseT weather parseVal doc) := by
  rw [preprocess_eq_rows]
  unfold terminatedJoin bodiesOf
  rw [List.map_filterMap]
  congr 1
  refine List.filterMap_congr (fun x _ => ?_)
  cases hT : parseT x.2.2.dateTime with
  | none => rfl
  | some t =>
    simp only [Option.map_some']
    rw [featureRowSpec_eq_body]

lemma mem_bodiesOf {parseT : List Char → Option Int} {weather : ℚ → ℚ → Option Int}
    {parseVal : List Char → Option ℚ} {doc : USGSJSON} {b : List Char}
    (hb : b ∈ bodiesOf parseT weather parseVal doc) :
    ∃ x ∈ docPoints doc, ∃ t, parseT x.2.2.dateTime = some t ∧
      b = bodyRowSpec parseVal weather x.1 x.2.1 t x.2.2 := by
  obtain ⟨x, hx, hmap⟩ := List.mem_filterMap.1 hb
  obtain ⟨t, ht, hbt⟩ := Option.map_eq_some'.1 hmap
  exact ⟨x, hx, t, ht, hbt.symm⟩

lemma bodyRowSpec_split (parseVal : List Char → Option ℚ)
    (weather : ℚ → ℚ → Option Int) (lat lng : ℚ) (t : Int) (p : USGSPoint) :
    splitOnChar ',' (bodyRowSpec parseVal weather lat lng t p) =
      [fmt6 ((parseVal p.value).getD 0), intChars t, fmt6 lat, fmt6 lng,
        intChars ((weather lat lng).getD 0)] := by
  refine splitOnChar_intercalate ',' _ (by simp) ?_
  intro f hf c hc
  have hsafe := rowFields_safe parseVal weather lat lng t p f hf c hc
  intro hcomma
  rw [hcomma] at hsafe
  simp [safeChars] at hsafe

lemma bodyRowSpec_no_space (parseVal : List Char → Option ℚ)
    (weather : ℚ → ℚ → Option Int) (lat lng : ℚ) (t : Int) (p : USGSPoint) :
    ∀ c ∈ bodyRowSpec parseVal weather lat lng t p, goIsSpace c = false := by
  intro c hc
  rcases mem_intercalate hc with rfl | ⟨f, hf, hcf⟩
  · decide
  · exact safe_not_space (rowFields_safe parseVal weather lat lng t p f hf c hcf)

lemma bodyRowSpec_ne_nil (parseVal : List Char → Option ℚ)
    (weather : ℚ → ℚ → Option Int) (lat lng : ℚ) (t : Int) (p : USGSPoint) :
    bodyRowSpec parseVal weather lat lng t p ≠ [] := by
  unfold bodyRowSpec
  rw [intercalate_cons_cons]
  simp

lemma length_filterMap_map_opt {α β γ : Type _} (o : α → Option β) (g : α → β → γ)
    (l : List α) :
    (l.filterMap (fun x => (o x).map (g x))).length =
      l.countP (fun x => (o x).isSome) := by
  induction l with
  | nil => rfl
  | cons x l' ih =>
    cases h : o x <;>
      simp [List.filterMap_cons, h, List.countP_cons, ih]

lemma bodiesOf_length (parseT : List Char → Option Int)
    (weather : ℚ → ℚ → Option Int) (parseVal : List Char → Option ℚ)
    (doc : USGSJSON) :
    (bodiesOf parseT weather parseVal doc).length =
      (docPoints doc).countP (fun x => (parseT x.2.2.dateTime).isSome) := by
  unfold bodiesOf
  exact length_filterMap_map_opt _ _ _

lemma stripLabelColumn_tJ (bodies : List (List Char))
    (hne : ∀ b ∈ bodies, b ≠ [])
    (hns : ∀ b ∈ bodies, ∀ c ∈ b, goIsSpace c = false) :
    stripLabelColumn (terminatedJoin bodies) =
      terminatedJoin (bodies.map (fun b =>
        List.intercalate [','] (if 1 < (splitOnChar ',' b).length then
          (splitOnChar ',' b).drop 1 else splitOnChar ',' b))) := by
  cases hB : bodies with
  | nil => decide
  | cons b0 rest =>
    rw [← hB]
    have hnl : ∀ b ∈ bodies, ∀ c ∈ b, c ≠ '\n' := by
      intro b hb c hc hceq
      have := hns b hb c hc
      rw [hceq] at this
      cases this
    unfold stripLabelColumn
    rw [trimGo_terminatedJoin bodies hne hns,
      splitOnChar_intercalate '\n' bodies (by rw [hB]; simp) hnl]
    unfold terminatedJoin
    rw [List.map_map]
    refine congrArg List.flatten (List.map_congr_left ?_)
    intro b hb
    have htrim : trimGo b = b := trimGo_eq_self b (hns b hb)
    rw [htrim, if_neg (hne b hb)]
    rfl

/-! ## Claim theorems C1 - C3 -/

/-- C1: the anomaly decision of ProcessInferAndDetect is
anomalous = (percent_change > threshold AND predicted > minimum_floor)
with default threshold 20 and minimum floor 15; anomalous is false
whenever predicted is at most the floor, and observed 1 with predicted 14
gives percent change 1300 yet anomalous false. -/
theorem anomaly_threshold_and_floor :
    defaultThresholdPercent = 20 ∧ minPredictedValue = 15 ∧
    (∀ k o p, ((detectAnomaly k o p).anomalous = true ↔
        (percentChangeSpec o p > 20 ∧ p > 15))) ∧
    (∀ k o p, p ≤ 15 → (detectAnomaly k o p).anomalous = false) ∧
    percentChangeSpec 1 14 = 1300 ∧
    (∀ k, (detectAnomaly k 1 14).anomalous = false) := by
  have hiff : ∀ k o p, ((detectAnomaly k o p).anomalous = true ↔
      (percentChangeSpec o p > 20 ∧ p > 15)) := by
    intro k o p
    simp [detectAnomaly, percentChangeSpec, defaultThresholdPercent, minPredictedValue]
  have hpc : percentChangeSpec 1 14 = 1300 := by
    unfold percentChangeSpec
    rw [show |(1:ℚ)| = 1 from abs_one,
      max_eq_right (by norm_num : (1:ℚ)/1000000000 ≤ 1)]
    norm_num
  have hfloor : ∀ k o p, p ≤ 15 → (detectAnomaly k o p).anomalous = false := by
    intro k o p hp
    have := hiff k o p
    rcases h : (detectAnomaly k o p).anomalous with _ | _
    · rfl
    · exact absurd ((this.1 h).2) (by linarith)
  refine ⟨rfl, rfl, hiff, hfloor, hpc, fun k => hfloor k 1 14 (by norm_num)⟩

/-- Witness for C1 at concrete inputs: predicted 14 is at most the floor
and the decision for observed 1, predicted 14 is not anomalous. -/
theorem anomaly_threshold_and_floor_witness :
    (detectAnomaly [] 1 14).anomalous = false :=
  anomaly_threshold_and_floor.2.2.2.1 [] 1 14 (by norm_num)

/-- C2: the decision stage computes percent_change from the unrounded
observed and predicted values by the invariant formula, returns observed
and predicted rounded to two decimals (integer multiples of 1/100), and
classifies using the unrounded values; concretely observed 1.001 and
predicted 1 round to equal response fields while the percent change is
nonzero. -/
theorem decision_unrounded_percent_rounded_fields :
    (∀ k o p,
      (detectAnomaly k o p).percentChange = |p - o| / max (1/1000000000) |o| * 100 ∧
      (detectAnomaly k o p).observedValue = (goRound (o * 100) : ℚ) / 100 ∧
      (detectAnomaly k o p).predictedValue = (goRound (p * 100) : ℚ) / 100 ∧
      (∃ n : ℤ, (detectAnomaly k o p).observedValue = (n : ℚ) / 100) ∧
      (∃ m : ℤ, (detectAnomaly k o p).predictedValue = (m : ℚ) / 100) ∧
      ((detectAnomaly k o p).anomalous = true ↔
        (|p - o| / max (1/1000000000) |o| * 100 > 20 ∧ p > 15))) ∧
    (∀ k, (detectAnomaly k (1001/1000) 1).observedValue =
        (detectAnomaly k (1001/1000) 1).predictedValue ∧
      (detectAnomaly k (1001/1000) 1).percentChange ≠ 0) := by
  constructor
  · intro k o p
    refine ⟨rfl, rfl, rfl, ⟨goRound (o * 100), rfl⟩, ⟨goRound (p * 100), rfl⟩, ?_⟩
    simp [detectAnomaly, defaultThresholdPercent, minPredictedValue]
  · intro k
    constructor
    · show (goRound ((1001/1000 : ℚ) * 100) : ℚ) / 100 = (goRound ((1:ℚ) * 100) : ℚ) / 100
      norm_num [goRound]
    · show |(1:ℚ) - 1001/1000| / max (1/1000000000) |(1001/1000 : ℚ)| * 100 ≠ 0
      rw [show |(1001/1000 : ℚ)| = 1001/1000 from abs_of_pos (by norm_num),
        max_eq_right (by norm_num : (1:ℚ)/1000000000 ≤ 1001/1000)]
      rw [show |(1:ℚ) - 1001/1000| = 1/1000 by rw [abs_of_nonpos (by norm_num)]; norm_num]
      norm_num

/-- C3: parsePredictions returns the last successfully parsed numeric
token of the separator-normalised, bracket-stripped output, errs when no
token parses, and the three sample outputs all yield 66.5. -/
theorem parsePredictions_last_token :
    (∀ pf output, trimGo output ≠ [] →
      parsePredictions pf output =
        ((numericTokens pf output).getLast?).elim
          (Except.error "no numeric predictions parsed".data) Except.ok) ∧
    parsePredictions parseDecimal "[66.5]".data = Except.ok (133/2) ∧
    parsePredictions parseDecimal "10\n20\n66.5".data = Except.ok (133/2) ∧
    parsePredictions parseDecimal "10,20,66.5".data = Except.ok (133/2) ∧
    parsePredictions parseDecimal "abc".data =
      Except.error "no numeric predictions parsed".data := by
  have hmain : ∀ pf output, trimGo output ≠ [] →
      parsePredictions pf output =
        ((numericTokens pf output).getLast?).elim
          (Except.error "no numeric predictions parsed".data) Except.ok := by
    intro pf output h
    unfold parsePredictions
    rw [if_neg h, foldl_predStep_eq, numericTokens_eq_filterMap]
    cases (List.filterMap (tokOf pf)
        (splitOnChar ','
          ((dropBracketClose (dropBracketOpen (trimGo output))).map sepToComma))).getLast? with
    | none => rfl
    | some v => rfl
  have e10 : tokOf parseDecimal ['1', '0'] = some 10 := by
    rw [tokOf_eval _ _ (by decide) (by decide)]
    exact parseDecimal_ten
  have e20 : tokOf parseDecimal ['2', '0'] = some 20 := by
    rw [tokOf_eval _ _ (by decide) (by decide)]
    exact parseDecimal_twenty
  have e665 : tokOf parseDecimal ['6', '6', '.', '5'] = some (133/2) := by
    rw [tokOf_eval _ _ (by decide) (by decide)]
    exact parseDecimal_sixtySixFive
  have eabc : tokOf parseDecimal ['a', 'b', 'c'] = none := by
    rw [tokOf_eval _ _ (by decide) (by decide)]
    exact parseDecimal_abc
  refine ⟨hmain, ?_, ?_, ?_, ?_⟩
  · refine parsePredictions_eval_ok _ _ [['6', '6', '.', '5']] _ (by decide) (by decide) ?_
    rw [List.foldl_cons, List.foldl_nil, predStep_eq, e665]
    rfl
  · refine parsePredictions_eval_ok _ _
      [['1', '0'], ['2', '0'], ['6', '6', '.', '5']] _ (by decide) (by decide) ?_
    rw [List.foldl_cons, predStep_eq, e10, List.foldl_cons, predStep_eq, e20,
      List.foldl_cons, List.foldl_nil, predStep_eq, e665]
    rfl
  · refine parsePredictions_eval_ok _ _
      [['1', '0'], ['2', '0'], ['6', '6', '.', '5']] _ (by decide) (by decide) ?_
    rw [List.foldl_cons, predStep_eq, e10, List.foldl_cons, predStep_eq, e20,
      List.foldl_cons, List.foldl_nil, predStep_eq, e665]
    rfl
  · refine parsePredictions_eval_err _ _ [['a', 'b', 'c']] (by decide) (by decide) ?_
    rw [List.foldl_cons, List.foldl_nil, predStep_eq, eabc]
    rfl

/-- Witness for C3 applying the general statement at a concrete output. -/
theorem parsePredictions_last_token_witness :
    parsePredictions parseDecimal "10,20,66.5".data =
      ((numericTokens parseDecimal "10,20,66.5".data).getLast?).elim
        (Except.error "no numeric predictions parsed".data) Except.ok :=
  parsePredictions_last_token.1 parseDecimal "10,20,66.5".data (by decide)

/-! ## Claim theorems C5 and C6 -/

/-- C6: the encoder emits, in document order and with no header, one
comma-separated record per point with a parseable timestamp — six-decimal
value, integer epoch seconds, six-decimal latitude and longitude, integer
temperature — while an unparsable value yields a row with value 0, a
weather failure yields temperature 0, and an unparsable timestamp drops
the point. -/
theorem encoder_row_layout :
    (∀ parseT weather parseVal doc,
      PreprocessDataCSV parseT weather parseVal doc =
        ((docPoints doc).filterMap (fun x =>
          (parseT x.2.2.dateTime).map (fun t =>
            featureRowSpec parseVal weather x.1 x.2.1 t x.2.2))).flatten) ∧
    (∀ (parseVal : List Char → Option ℚ) weather lat lng (t : Int) p,
      parseVal p.value = none →
      featureRowSpec parseVal weather lat lng t p =
        fmt6 0 ++ [','] ++ intChars t ++ [','] ++ fmt6 lat ++ [','] ++ fmt6 lng ++
          [','] ++ intChars ((weather lat lng).getD 0) ++ ['\n']) ∧
    (∀ (parseVal : List Char → Option ℚ) (weather : ℚ → ℚ → Option Int) lat lng
      (t : Int) p, weather lat lng = none →
      featureRowSpec parseVal weather lat lng t p =
        fmt6 ((parseVal p.value).getD 0) ++ [','] ++ intChars t ++ [','] ++ fmt6 lat ++
          [','] ++ fmt6 lng ++ [','] ++ intChars 0 ++ ['\n']) ∧
    (∀ parseT (parseVal : List Char → Option ℚ) lat lng (temp : Int) p,
      parseT p.dateTime = none →
      encodePoint parseT parseVal lat lng temp p = none) := by
  refine ⟨preprocess_eq_rows, ?_, ?_, ?_⟩
  · intro parseVal weather lat lng t p h
    unfold featureRowSpec
    rw [h]
    rfl
  · intro parseVal weather lat lng t p h
    unfold featureRowSpec
    rw [h]
    rfl
  · intro parseT parseVal lat lng temp p h
    unfold encodePoint
    rw [h]
    rfl

/-- Witness for C6 at a concrete point whose value string does not parse
and whose weather lookup fails: the emitted row carries value 0 and
temperature 0. -/
theorem encoder_row_layout_witness :
    featureRowSpec (fun _ => none) (fun _ _ => none) 0 0 0 ⟨"x".data, "t".data⟩ =
      fmt6 0 ++ [','] ++ intChars 0 ++ [','] ++ fmt6 0 ++ [','] ++ fmt6 0 ++ [','] ++
        intChars ((((fun (_ _ : ℚ) => (none : Option Int))) 0 0).getD 0) ++ ['\n'] :=
  encoder_row_layout.2.1 (fun _ => none) (fun _ _ => none) 0 0 0
    ⟨"x".data, "t".data⟩ rfl

/-- C5: a document with N points whose timestamps parse encodes to
exactly N feature-row lines, every encoded line has five comma-delimited
fields, and after the label-stripping step every transmitted row has
exactly four. -/
theorem encode_strip_roundtrip :
    ∀ parseT weather parseVal doc,
      (linesOf (PreprocessDataCSV parseT weather parseVal doc)).length =
        (docPoints doc).countP (fun x => (parseT x.2.2.dateTime).isSome) ∧
      (∀ b ∈ linesOf (PreprocessDataCSV parseT weather parseVal doc),
        (splitOnChar ',' b).length = 5) ∧
      (∀ b ∈ linesOf (stripLabelColumn (PreprocessDataCSV parseT weather parseVal doc)),
        (splitOnChar ',' b).length = 4) := by
  intro parseT weather parseVal doc
  have hbne : ∀ b ∈ bodiesOf parseT weather parseVal doc, b ≠ [] := by
    intro b hb
    obtain ⟨x, hx, t, ht, rfl⟩ := mem_bodiesOf hb
    exact bodyRowSpec_ne_nil parseVal weather x.1 x.2.1 t x.2.2
  have hbns : ∀ b ∈ bodiesOf parseT weather parseVal doc, ∀ c ∈ b,
      goIsSpace c = false := by
    intro b hb
    obtain ⟨x, hx, t, ht, rfl⟩ := mem_bodiesOf hb
    exact bodyRowSpec_no_space parseVal weather x.1 x.2.1 t x.2.2
  have hbnl : ∀ b ∈ bodiesOf parseT weather parseVal doc, ∀ c ∈ b, c ≠ '\n' := by
    intro b hb c hc hceq
    have := hbns b hb c hc
    rw [hceq] at this
    cases this
  have hlines : linesOf (PreprocessDataCSV parseT weather parseVal doc) =
      bodiesOf parseT weather parseVal doc := by
    rw [preprocess_eq_tJ]
    exact linesOf_terminatedJoin _ hbnl
  refine ⟨?_, ?_, ?_⟩
  · rw [hlines]
    exact bodiesOf_length parseT weather parseVal doc
  · intro b hb
    rw [hlines] at hb
    obtain ⟨x, hx, t, ht, rfl⟩ := mem_bodiesOf hb
    rw [bodyRowSpec_split]
    rfl
  · have hstrip : stripLabelColumn (PreprocessDataCSV parseT weather parseVal doc) =
        terminatedJoin ((bodiesOf parseT weather parseVal doc).map (fun b =>
          List.intercalate [','] (if 1 < (splitOnChar ',' b).length then
            (splitOnChar ',' b).drop 1 else splitOnChar ',' b))) := by
      rw [preprocess_eq_tJ]
      exact stripLabelColumn_tJ _ hbne hbns
    have hstrippedSafe : ∀ b' ∈ (bodiesOf parseT weather parseVal doc).map (fun b =>
        List.intercalate [','] (if 1 < (splitOnChar ',' b).length then
          (splitOnChar ',' b).drop 1 else splitOnChar ',' b)), ∀ c ∈ b', c ≠ '\n' := by
      intro b' hb' c hc hceq
      obtain ⟨b0, hb0, rfl⟩ := List.mem_map.1 hb'
      obtain ⟨x, hx, t, ht, rfl⟩ := mem_bodiesOf hb0
      rcases mem_intercalate hc with h2 | ⟨f, hf, hcf⟩
      · rw [hceq] at h2
        cases h2
      · have hfmem : f ∈ splitOnChar ',' (bodyRowSpec parseVal weather x.1 x.2.1 t x.2.2) := by
          rcases (em (1 < (splitOnChar ','
              (bodyRowSpec parseVal weather x.1 x.2.1 t x.2.2)).length)) with hlt | hlt
          · rw [if_pos hlt] at hf
            exact List.drop_subset _ _ hf
          · rw [if_neg hlt] at hf
            exact hf
        rw [bodyRowSpec_split] at hfmem
        have := safe_not_space (rowFields_safe parseVal weather x.1 x.2.1 t x.2.2 f hfmem c hcf)
        rw [hceq] at this
        cases this
    intro b hb
    rw [hstrip, linesOf_terminatedJoin _ hstrippedSafe] at hb
    obtain ⟨b0, hb0, rfl⟩ := List.mem_map.1 hb
    obtain ⟨x, hx, t, ht, rfl⟩ := mem_bodiesOf hb0
    have hcf4 : ∀ f ∈ [intChars t, fmt6 x.1, fmt6 x.2.1,
        intChars ((weather x.1 x.2.1).getD 0)], ∀ c ∈ f, c ≠ ',' := by
      intro f hf c hc hceq
      have hfm : f ∈ [fmt6 ((parseVal x.2.2.value).getD 0), intChars t, fmt6 x.1,
          fmt6 x.2.1, intChars ((weather x.1 x.2.1).getD 0)] := by
        simp only [List.mem_cons, List.not_mem_nil, or_false] at hf ⊢
        tauto
      have := rowFields_safe parseVal weather x.1 x.2.1 t x.2.2 f hfm c hc
      rw [hceq] at this
      simp [safeChars] at this
    rw [bodyRowSpec_split]
    rw [if_pos (by simp)]
    rw [show ([fmt6 ((parseVal x.2.2.value).getD 0), intChars t, fmt6 x.1, fmt6 x.2.1,
        intChars ((weather x.1 x.2.1).getD 0)].drop 1) = [intChars t, fmt6 x.1,
        fmt6 x.2.1, intChars ((weather x.1 x.2.1).getD 0)] from rfl]
    rw [splitOnChar_intercalate ',' _ (by simp) hcf4]
    rfl

/-- Concrete timestamp oracle: t1 parses to epoch second 5. -/
def parseT0 : List Char → Option Int :=
  fun s => if s = "t1".data then some 5 else none

/-- Concrete weather oracle that always fails. -/
def weather0 : ℚ → ℚ → Option Int := fun _ _ => none

/-- Concrete value scanner that never parses. -/
def parseVal0 : List Char → Option ℚ := fun _ => none

/-- Concrete document point. -/
def point0 : USGSPoint := ⟨"72.3".data, "t1".data⟩

/-- Concrete one-series, one-point document. -/
def doc0 : USGSJSON := ⟨[⟨0, 0, [⟨[point0]⟩]⟩]⟩

/-- Witness for C5 at the concrete document: one encoded line, five
fields before stripping, four after. -/
theorem encode_strip_roundtrip_witness :
    (linesOf (PreprocessDataCSV parseT0 weather0 parseVal0 doc0)).length =
      (docPoints doc0).countP (fun x => (parseT0 x.2.2.dateTime).isSome) ∧
    (splitOnChar ',' (bodyRowSpec parseVal0 weather0 0 0 5 point0)).length = 5 ∧
    (splitOnChar ',' (List.intercalate [','] (if 1 < (splitOnChar ','
        (bodyRowSpec parseVal0 weather0 0 0 5 point0)).length then (splitOnChar ','
        (bodyRowSpec parseVal0 weather0 0 0 5 point0)).drop 1 else splitOnChar ','
        (bodyRowSpec parseVal0 weather0 0 0 5 point0)))).length = 4 := by
  have h := encode_strip_roundtrip parseT0 weather0 parseVal0 doc0
  have h1 : bodiesOf parseT0 weather0 parseVal0 doc0 =
      [bodyRowSpec parseVal0 weather0 0 0 5 point0] := by
    unfold bodiesOf docPoints seriesPoints doc0
    simp [parseT0, point0]
  have hnospace : ∀ b ∈ [bodyRowSpec parseVal0 weather0 0 0 5 point0], ∀ c ∈ b,
      goIsSpace c = false := by
    intro b hb
    rcases List.mem_singleton.1 hb with rfl
    exact bodyRowSpec_no_space parseVal0 weather0 0 0 5 point0
  have hnonl : ∀ b ∈ [bodyRowSpec parseVal0 weather0 0 0 5 point0], ∀ c ∈ b,
      c ≠ '\n' := by
    intro b hb c hc hceq
    have := hnospace b hb c hc
    rw [hceq] at this
    cases this
  have hmemlines : linesOf (PreprocessDataCSV parseT0 weather0 parseVal0 doc0) =
      [bodyRowSpec parseVal0 weather0 0 0 5 point0] := by
    rw [preprocess_eq_tJ, h1]
    exact linesOf_terminatedJoin _ hnonl
  have h2 : stripLabelColumn (PreprocessDataCSV parseT0 weather0 parseVal0 doc0) =
      terminatedJoin ([bodyRowSpec parseVal0 weather0 0 0 5 point0].map (fun b =>
        List.intercalate [','] (if 1 < (splitOnChar ',' b).length then
          (splitOnChar ',' b).drop 1 else splitOnChar ',' b))) := by
    rw [preprocess_eq_tJ, h1]
    refine stripLabelColumn_tJ _ ?_ hnospace
    intro b hb
    rcases List.mem_singleton.1 hb with rfl
    exact bodyRowSpec_ne_nil parseVal0 weather0 0 0 5 point0
  have hstrippedSafe : ∀ b' ∈ [bodyRowSpec parseVal0 weather0 0 0 5 point0].map
      (fun b => List.intercalate [','] (if 1 < (splitOnChar ',' b).length then
        (splitOnChar ',' b).drop 1 else splitOnChar ',' b)), ∀ c ∈ b', c ≠ '\n' := by
    intro b' hb' c hc hceq
    obtain ⟨b0, hb0, rfl⟩ := List.mem_map.1 hb'
    rcases List.mem_singleton.1 hb0 with rfl
    rcases mem_intercalate hc with h3 | ⟨f, hf, hcf⟩
    · rw [hceq] at h3
      cases h3
    · have hfmem : f ∈ splitOnChar ',' (bodyRowSpec parseVal0 weather0 0 0 5 point0) := by
        rcases (em (1 < (splitOnChar ','
            (bodyRowSpec parseVal0 weather0 0 0 5 point0)).length)) with hlt | hlt
        · rw [if_pos hlt] at hf
          exact List.drop_subset _ _ hf
        · rw [if_neg hlt] at hf
          exact hf
      rw [bodyRowSpec_split] at hfmem
      have := safe_not_space (rowFields_safe parseVal0 weather0 0 0 5 point0 f hfmem c hcf)
      rw [hceq] at this
      cases this
  have h3 : linesOf (stripLabelColumn (PreprocessDataCSV parseT0 weather0 parseVal0 doc0)) =
      [bodyRowSpec parseVal0 weather0 0 0 5 point0].map (fun b =>
        List.intercalate [','] (if 1 < (splitOnChar ',' b).length then
          (splitOnChar ',' b).drop 1 else splitOnChar ',' b)) := by
    rw [h2]
    exact linesOf_terminatedJoin _ hstrippedSafe
  refine ⟨h.1, ?_, ?_⟩
  · exact h.2.1 _ (by rw [hmemlines]; simp)
  · exact h.2.2 _ (by rw [h3]; simp)

/-! ## Claim C10: latest-observed-value extraction -/

lemma foldl_nested {α β : Type _} (step : Option (Int × ℚ) → β → Option (Int × ℚ))
    (proj : α → List β) (vvs : List α) (st : Option (Int × ℚ)) :
    vvs.foldl (fun s vv => (proj vv).foldl step s) st =
      ((vvs.map proj).flatten).foldl step st := by
  induction vvs generalizing st with
  | nil => rfl
  | cons vv rest ih => simp [List.foldl_append, ih]

lemma latestInSeries_eq_foldl (parseT : List Char → Option Int)
    (parseVal : List Char → Option ℚ) (ts : USGSTimeSeries) :
    latestInSeries parseT parseVal ts =
      (seriesPoints ts).foldl (latestStep parseT parseVal) none := by
  unfold latestInSeries seriesPoints
  exact foldl_nested (latestStep parseT parseVal) (fun vv => vv.value) ts.values none

lemma foldl_latest_no_parse (parseT : List Char → Option Int)
    (parseVal : List Char → Option ℚ) (P : List USGSPoint)
    (h : ∀ p ∈ P, parseT p.dateTime = none) :
    ∀ st, P.foldl (latestStep parseT parseVal) st = st := by
  induction P with
  | nil => intro st; rfl
  | cons p rest ih =>
    intro st
    rw [List.foldl_cons]
    have hst : latestStep parseT parseVal st p = st := by
      unfold latestStep
      rw [h p (List.mem_cons_self _ _)]
    rw [hst]
    exact ih (fun q hq => h q (List.mem_cons_of_mem _ hq)) st

lemma foldl_latest_some (parseT : List Char → Option Int)
    (parseVal : List Char → Option ℚ) (P : List USGSPoint)
    (hP : ∃ p ∈ P, (parseT p.dateTime).isSome) :
    ∃ tm vm, P.foldl (latestStep parseT parseVal) none = some (tm, vm) ∧
      (∃ q ∈ P, parseT q.dateTime = some tm ∧ vm = (parseVal q.value).getD 0) ∧
      (∀ q ∈ P, ∀ tq, parseT q.dateTime = some tq → tq ≤ tm) := by
  induction P using List.reverseRecOn with
  | nil => simp at hP
  | append_singleton l p ih =>
    rw [List.foldl_append, List.foldl_cons, List.foldl_nil]
    by_cases hl : ∃ q ∈ l, (parseT q.dateTime).isSome
    · obtain ⟨tm, vm, hfold, ⟨q, hq, hqt, hqv⟩, hbound⟩ := ih hl
      rw [hfold]
      cases hp : parseT p.dateTime with
      | none =>
        refine ⟨tm, vm, by simp only [latestStep, hp],
          ⟨q, List.mem_append_left _ hq, hqt, hqv⟩, ?_⟩
        intro q' hq' tq htq
        rcases List.mem_append.1 hq' with h2 | h2
        · exact hbound q' h2 tq htq
        · rcases List.mem_singleton.1 h2 with rfl
          rw [hp] at htq
          cases htq
      | some t =>
        by_cases htlt : tm < t
        · refine ⟨t, (parseVal p.value).getD 0,
            by simp only [latestStep, hp]; rw [if_pos htlt],
            ⟨p, List.mem_append_right _ (by simp), hp, rfl⟩, ?_⟩
          intro q' hq' tq htq
          rcases List.mem_append.1 hq' with h2 | h2
          · exact le_of_lt (lt_of_le_of_lt (hbound q' h2 tq htq) htlt)
          · rcases List.mem_singleton.1 h2 with rfl
            rw [hp] at htq
            injection htq with h3
            omega
        · refine ⟨tm, vm, by simp only [latestStep, hp]; rw [if_neg htlt],
            ⟨q, List.mem_append_left _ hq, hqt, hqv⟩, ?_⟩
          intro q' hq' tq htq
          rcases List.mem_append.1 hq' with h2 | h2
          · exact hbound q' h2 tq htq
          · rcases List.mem_singleton.1 h2 with rfl
            rw [hp] at htq
            injection htq with h3
            omega
    · have hallnone : ∀ q ∈ l, parseT q.dateTime = none := by
        intro q hq
        by_contra hne
        exact hl ⟨q, hq, Option.ne_none_iff_isSome.1 hne⟩
      rw [foldl_latest_no_parse parseT parseVal l hallnone none]
      have hps : (parseT p.dateTime).isSome := by
        rcases hP with ⟨q, hq, hqs⟩
        rcases List.mem_append.1 hq with h2 | h2
        · exact absurd ⟨q, h2, hqs⟩ hl
        · rcases List.mem_singleton.1 h2 with rfl
          exact hqs
      obtain ⟨t, ht⟩ := Option.isSome_iff_exists.1 hps
      refine ⟨t, (parseVal p.value).getD 0, by simp only [latestStep, ht],
        ⟨p, List.mem_append_right _ (by simp), ht, rfl⟩, ?_⟩
      intro q' hq' tq htq
      rcases List.mem_append.1 hq' with h2 | h2
      · rw [hallnone q' h2] at htq
        cases htq
      · rcases List.mem_singleton.1 h2 with rfl
        rw [ht] at htq
        injection htq with h3
        omega

lemma latestInSeries_none_iff (parseT : List Char → Option Int)
    (parseVal : List Char → Option ℚ) (ts : USGSTimeSeries) :
    latestInSeries parseT parseVal ts = none ↔
      ∀ p ∈ seriesPoints ts, parseT p.dateTime = none := by
  rw [latestInSeries_eq_foldl]
  constructor
  · intro h p hp
    by_contra hne
    obtain ⟨tm, vm, hfold, -, -⟩ := foldl_latest_some parseT parseVal _
      ⟨p, hp, Option.ne_none_iff_isSome.1 hne⟩
    rw [hfold] at h
    cases h
  · intro h
    exact foldl_latest_no_parse parseT parseVal _ h none

lemma parseLatestObserved_cons (parseT : List Char → Option Int)
    (parseVal : List Char → Option ℚ) (ts : USGSTimeSeries)
    (rest : List USGSTimeSeries) :
    parseLatestObserved parseT parseVal (ts :: rest) =
      match latestInSeries parseT parseVal ts with
      | some (_, v) => Except.ok v
      | none => parseLatestObserved parseT parseVal rest := rfl

lemma parseLatestObserved_error_iff (parseT : List Char → Option Int)
    (parseVal : List Char → Option ℚ) (tss : List USGSTimeSeries) :
    parseLatestObserved parseT parseVal tss =
        Except.error "no observations found".data ↔
      ∀ ts ∈ tss, ∀ p ∈ seriesPoints ts, parseT p.dateTime = none := by
  induction tss with
  | nil => simp [parseLatestObserved]
  | cons ts rest ih =>
    rw [parseLatestObserved_cons]
    cases h : latestInSeries parseT parseVal ts with
    | some pair =>
      constructor
      · intro h2
        cases h2
      · intro hall
        have := (latestInSeries_none_iff parseT parseVal ts).2
          (hall ts (List.mem_cons_self _ _))
        rw [h] at this
        cases this
    | none =>
      rw [ih]
      constructor
      · intro hall ts' hts'
        rcases List.mem_cons.1 hts' with rfl | h2
        · exact (latestInSeries_none_iff parseT parseVal ts').1 h
        · exact hall ts' h2
      · intro hall ts' hts'
        exact hall ts' (List.mem_cons_of_mem _ hts')

/-- C10: the extraction returns the value of the maximal-timestamp point
of the first series containing a parseable point, whatever the later
series contain, and errs exactly when no series has a parseable point. -/
theorem latest_observed_first_series :
    (∀ parseT parseVal (pre : List USGSTimeSeries) ts (post : List USGSTimeSeries) p t,
      (∀ ts' ∈ pre, ∀ q ∈ seriesPoints ts', parseT q.dateTime = none) →
      p ∈ seriesPoints ts → parseT p.dateTime = some t →
      (∀ q ∈ seriesPoints ts, ∀ tq, parseT q.dateTime = some tq → tq ≤ t) →
      (∀ q ∈ seriesPoints ts, parseT q.dateTime = some t →
        (parseVal q.value).getD 0 = (parseVal p.value).getD 0) →
      parseLatestObserved parseT parseVal (pre ++ ts :: post) =
        Except.ok ((parseVal p.value).getD 0)) ∧
    (∀ parseT parseVal (tss : List USGSTimeSeries),
      (parseLatestObserved parseT parseVal tss =
          Except.error "no observations found".data ↔
        ∀ ts ∈ tss, ∀ p ∈ seriesPoints ts, parseT p.dateTime = none)) := by
  refine ⟨?_, parseLatestObserved_error_iff⟩
  intro parseT parseVal pre ts post p t hpre hp ht hbound htie
  induction pre with
  | nil =>
    rw [List.nil_append, parseLatestObserved_cons]
    obtain ⟨tm, vm, hfold, ⟨q, hq, hqt, hqv⟩, hmax⟩ :=
      foldl_latest_some parseT parseVal (seriesPoints ts)
        ⟨p, hp, by rw [ht]; rfl⟩
    have htm : tm = t := le_antisymm (hbound q hq tm hqt) (hmax p hp t ht)
    rw [latestInSeries_eq_foldl, hfold]
    rw [htm] at hqt
    show Except.ok vm = Except.ok ((parseVal p.value).getD 0)
    rw [hqv, htie q hq hqt]
  | cons ts' pre' ih =>
    rw [List.cons_append, parseLatestObserved_cons]
    have hn : latestInSeries parseT parseVal ts' = none :=
      (latestInSeries_none_iff parseT parseVal ts').2
        (hpre ts' (List.mem_cons_self _ _))
    rw [hn]
    exact ih (fun x hx => hpre x (List.mem_cons_of_mem _ hx))

/-- Concrete timestamp oracle for the C10 witness. -/
def parseT1 : List Char → Option Int :=
  fun s =>
    if s = "T1".data then some 1
    else if s = "T2".data then some 2
    else if s = "T9".data then some 9
    else none

/-- First series of the C10 witness: two points at instants 1 and 2. -/
def series1 : USGSTimeSeries :=
  ⟨0, 0, [⟨[⟨"1".data, "T1".data⟩, ⟨"2".data, "T2".data⟩]⟩]⟩

/-- Second series of the C10 witness: one strictly more recent point. -/
def series2 : USGSTimeSeries := ⟨0, 0, [⟨[⟨"9".data, "T9".data⟩]⟩]⟩

/-- Witness for C10: the first series' maximal point (instant 2) wins,
although the second series holds a strictly more recent point. -/
theorem latest_observed_first_series_witness :
    parseLatestObserved parseT1 parseVal0 [series1, series2] =
      Except.ok ((parseVal0 "2".data).getD 0) := by
  have h := latest_observed_first_series.1 parseT1 parseVal0 []
    series1 [series2] ⟨"2".data, "T2".data⟩ 2
    (by intro ts' hts'; cases hts')
    (by unfold series1 seriesPoints; simp)
    (by decide)
    ?_ ?_
  · exact h
  · intro q hq tq htq
    unfold series1 seriesPoints at hq
    simp at hq
    rcases hq with rfl | rfl
    · rw [show parseT1 "T1".data = some 1 from by decide] at htq
      injection htq with h2
      omega
    · rw [show parseT1 "T2".data = some 2 from by decide] at htq
      injection htq with h2
      omega
  · intro q hq htq
    unfold series1 seriesPoints at hq
    simp at hq
    rcases hq with rfl | rfl
    · rw [show parseT1 "T1".data = some 1 from by decide] at htq
      cases htq
    · rfl

/-! ## Claim theorems C4, C7, C8, C9 -/

/-- C4 counterexample: the claim that the daily → instantaneous → canned
fallback chain holds for every pipeline entry point fails at
ProcessInferAndDetect, whose fetch stage propagates the request error
outright when the provider is down. -/
theorem processInfer_fetch_error_counterexample :
    processInferFetchStage fetchAlwaysFails "03339000".data =
      Except.error "USGS API request failed".data := rfl

/-- C4 amended: the tiered fallback (30-day daily batch, then the
instantaneous batch, then a single embedded canned document, never an
error) is the fetch stage of the preprocess handler only; the fetch stage
of ProcessInferAndDetect calls the instantaneous batch directly and
propagates its failure. -/
theorem fallback_chain_scope :
    (∀ daily iv ids rs, GetWaterDailyDataLast30DaysBatch daily ids = Except.ok rs →
      preprocessFetchStage daily iv ids = rs) ∧
    (∀ daily iv ids e rs, GetWaterDailyDataLast30DaysBatch daily ids = Except.error e →
      GetWaterDataBatch iv ids = Except.ok rs →
      preprocessFetchStage daily iv ids = rs) ∧
    (∀ daily iv ids e e2, GetWaterDailyDataLast30DaysBatch daily ids = Except.error e →
      GetWaterDataBatch iv ids = Except.error e2 →
      preprocessFetchStage daily iv ids = [some cannedUSGSDoc]) ∧
    (∀ iv sid e, sid ≠ [] → trimGo sid ≠ [] → iv (trimGo sid) = Except.error e →
      processInferFetchStage iv sid = Except.error e) := by
  refine ⟨?_, ?_, ?_, ?_⟩
  · intro daily iv ids rs h
    unfold preprocessFetchStage
    rw [h]
  · intro daily iv ids e rs h h2
    unfold preprocessFetchStage
    rw [h, h2]
  · intro daily iv ids e e2 h h2
    unfold preprocessFetchStage
    rw [h, h2]
  · intro iv sid e hsid htrim hiv
    unfold processInferFetchStage
    rw [if_neg hsid, GetWaterDataBatch_cons, if_neg htrim, hiv]

/-- Witness for C4 at a concrete failing provider: the preprocess fetch
stage substitutes the canned document when both batches fail. -/
theorem fallback_chain_scope_witness :
    preprocessFetchStage fetchAlwaysFails fetchAlwaysFails ["03339000".data] =
      [some cannedUSGSDoc] :=
  fallback_chain_scope.2.2.1 fetchAlwaysFails fetchAlwaysFails ["03339000".data]
    "USGS API request failed".data "USGS API request failed".data rfl rfl

/-- C7: the dataset accumulator concatenates previous content and new
bytes with one separating newline, takes the new bytes alone on lookup
failure, and appending new content to previous content x,y that lacks a
trailing newline yields exactly the two, newline separated. -/
theorem dataset_append_semantics :
    (∀ e nw, mergeDataset (Except.error e) nw = nw) ∧
    (∀ ex nw, ex ≠ [] → ex.getLast? ≠ some '\n' →
      mergeDataset (Except.ok ex) nw = ex ++ '\n' :: nw) ∧
    mergeDataset (Except.ok "x,y".data) "a,b\n".data = "x,y\na,b\n".data := by
  refine ⟨fun e nw => rfl, ?_, by decide⟩
  intro ex nw hne hnl
  show (if ex ≠ [] then (if ex.getLast? ≠ some '\n' then ex ++ ['\n'] else ex) ++ nw
      else nw) = ex ++ '\n' :: nw
  rw [if_pos hne, if_pos hnl]
  simp

/-- Witness for C7 applying the general append equation at the concrete
spec example. -/
theorem dataset_append_semantics_witness :
    mergeDataset (Except.ok "x,y".data) "a,b\n".data = "x,y".data ++ '\n' :: "a,b\n".data :=
  dataset_append_semantics.2.1 "x,y".data "a,b\n".data (by decide) (by decide)

/-- C8: a non-empty batch with at least one blank identifier, all of
whose non-blank requests succeed, yields a result list of the input's
length with none at every blank position, without aborting. -/
theorem batch_blank_entries_aligned :
    ∀ fetch ids, ids ≠ [] → (∃ sid ∈ ids, trimGo sid = []) →
      (∀ sid ∈ ids, trimGo sid ≠ [] → ∃ d, fetch (trimGo sid) = Except.ok d) →
      ∃ rs, GetWaterDataBatch fetch ids = Except.ok rs ∧ rs.length = ids.length ∧
        (∀ i (h : i < ids.length), trimGo ids[i] = [] → rs[i]? = some none) := by
  intro fetch ids _ _ hf
  exact batch_ok_of_fetch_ok fetch ids hf

/-- Witness for C8 at a concrete two-site batch whose first entry is
whitespace-only. -/
theorem batch_blank_entries_aligned_witness :
    ∃ rs, GetWaterDataBatch fetchFailsOnBad [" ".data, "good".data] = Except.ok rs ∧
      rs.length = ([" ".data, "good".data] : List (List Char)).length ∧
      (∀ i (h : i < ([" ".data, "good".data] : List (List Char)).length),
        trimGo ([" ".data, "good".data] : List (List Char))[i] = [] →
        rs[i]? = some none) := by
  refine batch_blank_entries_aligned fetchFailsOnBad [" ".data, "good".data]
    (by decide) ⟨" ".data, by simp, by decide⟩ ?_
  intro sid hs hnb
  simp only [List.mem_cons, List.not_mem_nil, or_false] at hs
  rcases hs with h | h
  · exact absurd (h ▸ (by decide : trimGo " ".data = [])) hnb
  · exact ⟨"payload".data, by rw [h]; rfl⟩

/-- C9 counterexample: a request failure for one site fails the whole
batch — with a second healthy site after the failing one, the batch
returns the single error and produces no result for the healthy site. -/
theorem batch_single_failure_counterexample :
    GetWaterDataBatch fetchFailsOnBad ["bad".data, "good".data] =
      Except.error "network failure".data := rfl

/-- C9 amended: the first per-site request failure aborts the whole
batch: when every earlier non-blank site succeeds and this site's request
fails, GetWaterDataBatch returns that error, whatever sites follow. -/
theorem batch_aborts_on_first_failure :
    ∀ fetch pre sid post e,
      (∀ s ∈ pre, trimGo s ≠ [] → ∃ d, fetch (trimGo s) = Except.ok d) →
      trimGo sid ≠ [] → fetch (trimGo sid) = Except.error e →
      GetWaterDataBatch fetch (pre ++ sid :: post) = Except.error e := by
  intro fetch pre sid post e hpre hsid hfail
  induction pre with
  | nil =>
    rw [List.nil_append, GetWaterDataBatch_cons, if_neg hsid, hfail]
  | cons s pre' ih =>
    have ih2 := ih (fun x hx => hpre x (List.mem_cons_of_mem _ hx))
    by_cases hb : trimGo s = []
    · rw [List.cons_append, GetWaterDataBatch_cons, if_pos hb, ih2]
    · obtain ⟨d, hd⟩ := hpre s (List.mem_cons_self _ _) hb
      rw [List.cons_append, GetWaterDataBatch_cons, if_neg hb, hd, ih2]

/-- Witness for C9 at a concrete batch: a healthy site, then the failing
site, then another site; the batch returns the failing site's error. -/
theorem batch_aborts_on_first_failure_witness :
    GetWaterDataBatch fetchFailsOnBad ["good".data, "bad".data, "third".data] =
      Except.error "network failure".data := by
  refine batch_aborts_on_first_failure fetchFailsOnBad ["good".data] "bad".data
    ["third".data] "network failure".data ?_ (by decide) (by rfl)
  intro s hs _
  simp only [List.mem_singleton] at hs
  exact ⟨"payload".data, by rw [hs]; rfl⟩

end AquaWatch
